import Mathlib

/-!
Verification development for the `fixednolimitholdem` variant of rlcard:
a shallow embedding of `utils.py` (card encoding), `dealer.py`
(`NolimitholdemDealer`, the manual-mode card source) and `game.py`
(`NolimitholdemGame`, the stage state machine), with theorems settling
the specification's claims about them.
-/

namespace FixedNLH

/-! ## Card encoding (utils.py) -/

/-- `suit_list = ['S', 'H', 'D', 'C']` from `utils.py`. -/
def suit_list : List Char := ['S', 'H', 'D', 'C']

/-- `rank_list = ['A', '2', ..., 'K']` from `utils.py`. -/
def rank_list : List Char :=
  ['A', '2', '3', '4', '5', '6', '7', '8', '9', 'T', 'J', 'Q', 'K']

/-- `get_card_id(suit, rank) = rank_index + 13 * suit_index` from `utils.py`. -/
def get_card_id (suit rank : Char) : Nat :=
  rank_list.indexOf rank + 13 * suit_list.indexOf suit

/-- `get_card_from_id(card_id)` from `utils.py`: suit is `card_id // 13`,
rank is `card_id % 13`, looked up in the two lists (Python list indexing
raises out of range, modelled by `Option`). -/
def get_card_from_id (card_id : Nat) : Option (Char × Char) := do
  let s ← suit_list[card_id / 13]?
  let r ← rank_list[card_id % 13]?
  return (s, r)

/-! ## Errors

Python raises exceptions; fallible operations are embedded in `Except GameError`. -/

/-- The error taxonomy: `IllegalState` (action while waiting for manual cards),
`InvalidAction` (action not in the legal set), `InvalidArgument` (malformed
preset, e.g. wrong-length flop), `Fatal` (deck exhausted during a draw). -/
inductive GameError where
  | illegalState
  | invalidAction
  | invalidArgument
  | fatal
deriving DecidableEq, Repr

/-! ## Card source (dealer.py, `NolimitholdemDealer`)

Cards are identified by their integer encoding (`get_card_id`); the dealer
compares cards only by equality, so `Nat` identities are faithful. -/

/-- The `current_stage` tag of the dealer: Python uses the strings
`'flop'`, `'turn'`, `'river'` or `None` (the `Option` wrapping below). -/
inductive CStage where
  | flop
  | turn
  | river
deriving DecidableEq, Repr

/-- State of `NolimitholdemDealer` (dealer.py `__init__`): the preset queues,
`current_stage`, `manual_mode`, `player0_cards_dealt`, plus the remaining
`deck` held by the base-class dealer (front of the list = next card drawn). -/
structure Dealer where
  deck : List Nat
  preset_player0_hand : List Nat
  preset_flop : List Nat
  preset_turn : Option Nat
  preset_river : Option Nat
  current_stage : Option CStage
  manual_mode : Bool
  player0_cards_dealt : Nat
deriving DecidableEq, Repr

/-- `enable_manual_mode` from dealer.py. -/
def Dealer.enable_manual_mode (d : Dealer) : Dealer :=
  { d with manual_mode := true }

/-- Python's `for card in cards: if card in self.deck: self.deck.remove(card)`:
remove the first occurrence of each card, skipping cards not present
(`List.erase` is exactly `remove`-if-present). -/
def removeEach (deck : List Nat) (cards : List Nat) : List Nat :=
  cards.foldl (fun dk c => dk.erase c) deck

/-- `set_player0_hand` from dealer.py: no-op outside manual mode; otherwise
store a copy of the cards and remove each from the deck if present. -/
def Dealer.set_player0_hand (d : Dealer) (cards : List Nat) : Dealer :=
  if !d.manual_mode then d
  else { d with preset_player0_hand := cards, deck := removeEach d.deck cards }

/-- `set_flop` from dealer.py: no-op outside manual mode; `ValueError` when
`len(cards) != 3`; otherwise store a copy and remove each from the deck. -/
def Dealer.set_flop (d : Dealer) (cards : List Nat) : Except GameError Dealer :=
  if !d.manual_mode then .ok d
  else if cards.length ≠ 3 then .error .invalidArgument
  else .ok { d with preset_flop := cards, deck := removeEach d.deck cards }

/-- `set_turn` from dealer.py: no-op outside manual mode; otherwise store the
card and remove it from the deck if present. -/
def Dealer.set_turn (d : Dealer) (card : Nat) : Dealer :=
  if !d.manual_mode then d
  else { d with preset_turn := some card, deck := d.deck.erase card }

/-- `set_river` from dealer.py: no-op outside manual mode; otherwise store the
card and remove it from the deck if present. -/
def Dealer.set_river (d : Dealer) (card : Nat) : Dealer :=
  if !d.manual_mode then d
  else { d with preset_river := some card, deck := d.deck.erase card }

/-- `has_preset_cards(stage)` from dealer.py: always true in automatic mode;
in manual mode, flop needs length 3, turn/river need a stored card. -/
def Dealer.has_preset_cards (d : Dealer) (stage : CStage) : Bool :=
  if !d.manual_mode then true
  else match stage with
    | .flop => d.preset_flop.length == 3
    | .turn => d.preset_turn.isSome
    | .river => d.preset_river.isSome

/-- Modelled from the spec: the base-class dealer's `deal_card` (the
`limitholdem` dealer is not in the sources) — "draw the next card from the
shuffled deck; drawing from an empty deck is a fatal condition". -/
def baseDealCard (d : Dealer) : Option (Nat × Dealer) :=
  match d.deck with
  | [] => none
  | c :: rest => some (c, { d with deck := rest })

/-- `deal_card(player_id)` from dealer.py: in manual mode, player zero's first
two cards come from `preset_player0_hand`; community cards come from the
preset queue matching `current_stage`; otherwise fall through to the deck.
`none` is the fatal empty-deck condition. -/
def Dealer.deal_card (d : Dealer) (player_id : Option Nat) : Option (Nat × Dealer) :=
  if d.manual_mode ∧ player_id = some 0 ∧ d.player0_cards_dealt < 2
      ∧ d.preset_player0_hand.length > 0 then
    match d.preset_player0_hand with
    | [] => none
    | c :: rest =>
      some (c, { d with preset_player0_hand := rest,
                        player0_cards_dealt := d.player0_cards_dealt + 1 })
  else if d.manual_mode ∧ d.current_stage = some .flop ∧ d.preset_flop.length > 0 then
    match d.preset_flop with
    | [] => none
    | c :: rest => some (c, { d with preset_flop := rest })
  else if d.manual_mode ∧ d.current_stage = some .turn ∧ d.preset_turn.isSome then
    match d.preset_turn with
    | none => none
    | some c => some (c, { d with preset_turn := none })
  else if d.manual_mode ∧ d.current_stage = some .river ∧ d.preset_river.isSome then
    match d.preset_river with
    | none => none
    | some c => some (c, { d with preset_river := none })
  else
    baseDealCard d

/-! ## Players, actions, betting round (external collaborators)

The `limitholdem` base classes and the betting `Round` are outside the
sources; they are modelled from the spec, the betting round as an abstract
interface of pure functions over an arbitrary round-state type `R`. -/

/-- Modelled from the spec: player status from the `limitholdem` base
package (not in the sources) — ALIVE, FOLDED, ALLIN. -/
inductive PlayerStatus where
  | ALIVE
  | FOLDED
  | ALLIN
deriving DecidableEq, Repr

/-- Modelled from the spec: the player record of the base package (not in
the sources) — id, hand (≤2 cards), status, chips committed this hand,
remaining stack. -/
structure Player where
  player_id : Nat
  hand : List Nat
  status : PlayerStatus
  in_chips : Nat
  remained_chips : Nat
deriving DecidableEq, Repr

/-- Modelled from the spec: `Player.bet(chips)` of the base package (not in
the sources) — moves chips from the stack into the committed amount. -/
def Player.bet (p : Player) (chips : Nat) : Player :=
  { p with in_chips := p.in_chips + chips, remained_chips := p.remained_chips - chips }

/-- Modelled from the spec: the fixed six-action enumeration (fold, check,
call, raise-half-pot, raise-pot, all-in) of the `Round` module (not in the
sources). -/
inductive Action where
  | FOLD
  | CHECK
  | CALL
  | RAISE_HALF_POT
  | RAISE_POT
  | ALL_IN
deriving DecidableEq, Repr

/-- Modelled from the spec: the behaviour of the external betting `Round`
(not in the sources), as pure functions over an abstract round state `R`:
construction, `start_new_round` (with and without seeded `raised`),
`proceed_round` (returns the updated round, the updated players, and the
next actor), `is_over`, `get_nolimit_legal_actions`, and the `raised`
chip-commitment list. Theorems below quantify over every such interface. -/
structure RoundIface (R : Type) where
  mkRound : Nat → Nat → R
  start_new_raised : R → Nat → List Nat → R
  start_new : R → Nat → R
  proceed : R → List Player → Action → R × List Player × Nat
  is_over : R → Bool
  legal : R → List Player → List Action
  raised : R → List Nat

/-! ## Game stage state machine (game.py, `NolimitholdemGame`) -/

/-- The `Stage` enumeration from game.py, with its numeric values 0–8. -/
inductive Stage where
  | PREFLOP
  | FLOP
  | TURN
  | RIVER
  | END_HIDDEN
  | SHOWDOWN
  | WAITING_FOR_FLOP
  | WAITING_FOR_TURN
  | WAITING_FOR_RIVER
deriving DecidableEq, Repr

/-- Python's `Stage(n)` value lookup (raises `ValueError` outside 0–8,
modelled by `none`). -/
def stageFromNat : Nat → Option Stage
  | 0 => some .PREFLOP
  | 1 => some .FLOP
  | 2 => some .TURN
  | 3 => some .RIVER
  | 4 => some .END_HIDDEN
  | 5 => some .SHOWDOWN
  | 6 => some .WAITING_FOR_FLOP
  | 7 => some .WAITING_FOR_TURN
  | 8 => some .WAITING_FOR_RIVER
  | _ => none

/-- The test `stage in (WAITING_FOR_FLOP, WAITING_FOR_TURN, WAITING_FOR_RIVER)`
used by `get_legal_actions`, `step` and `get_state`. -/
def waitingStage : Stage → Bool
  | .WAITING_FOR_FLOP => true
  | .WAITING_FOR_TURN => true
  | .WAITING_FOR_RIVER => true
  | _ => false

/-- An undo-history entry, exactly the tuple pushed by `step`:
`(round, game_pointer, round_counter, dealer, public_cards, players)`. -/
def Snapshot (R : Type) : Type :=
  R × Nat × Nat × Dealer × List Nat × List Player

/-- State of `NolimitholdemGame`, over an abstract betting-round state `R`. -/
structure Game (R : Type) where
  num_players : Nat
  small_blind : Nat
  big_blind : Nat
  init_chips : List Nat
  dealer_id : Nat
  player0_hand : List Nat
  manual_dealer : Bool
  allow_step_back : Bool
  dealer : Dealer
  players : List Player
  public_cards : List Nat
  stage : Stage
  game_pointer : Nat
  round : R
  round_counter : Nat
  history : List (Snapshot R)

/-- `_deal_flop` from game.py: set the dealer's `current_stage` to `'flop'`
and append three dealt cards to the board (`none` = fatal empty deck). -/
def Game.deal_flop {R : Type} (g : Game R) : Option (Game R) :=
  match ({ g.dealer with current_stage := some .flop } : Dealer).deal_card none with
  | none => none
  | some (c1, d1) =>
    match d1.deal_card none with
    | none => none
    | some (c2, d2) =>
      match d2.deal_card none with
      | none => none
      | some (c3, d3) =>
        some { g with dealer := d3,
                      public_cards := g.public_cards ++ [c1, c2, c3] }

/-- `_deal_turn` from game.py. -/
def Game.deal_turn {R : Type} (g : Game R) : Option (Game R) :=
  match ({ g.dealer with current_stage := some .turn } : Dealer).deal_card none with
  | none => none
  | some (c, d1) =>
    some { g with dealer := d1, public_cards := g.public_cards ++ [c] }

/-- `_deal_river` from game.py. -/
def Game.deal_river {R : Type} (g : Game R) : Option (Game R) :=
  match ({ g.dealer with current_stage := some .river } : Dealer).deal_card none with
  | none => none
  | some (c, d1) =>
    some { g with dealer := d1, public_cards := g.public_cards ++ [c] }

/-- `get_legal_actions` from game.py: empty while waiting for manual cards,
otherwise delegated to the betting round. -/
def Game.get_legal_actions {R : Type} (ri : RoundIface R) (g : Game R) : List Action :=
  if waitingStage g.stage then [] else ri.legal g.round g.players

/-- `set_flop` from game.py: no-op outside manual mode; otherwise forward to
the dealer's `set_flop` and, if currently `WAITING_FOR_FLOP`, deal the flop
and advance the stage to `FLOP`. -/
def Game.set_flop {R : Type} (g : Game R) (cards : List Nat) : Except GameError (Game R) :=
  if !g.manual_dealer then .ok g
  else
    match g.dealer.set_flop cards with
    | .error e => .error e
    | .ok d =>
      let g1 := { g with dealer := d }
      if g1.stage = .WAITING_FOR_FLOP then
        match g1.deal_flop with
        | none => .error .fatal
        | some g2 => .ok { g2 with stage := .FLOP }
      else .ok g1

/-- `set_turn` from game.py: no-op outside manual mode; otherwise forward to
the dealer and, if currently `WAITING_FOR_TURN`, deal the turn and advance
the stage to `TURN`. -/
def Game.set_turn {R : Type} (g : Game R) (card : Nat) : Except GameError (Game R) :=
  if !g.manual_dealer then .ok g
  else
    let g1 := { g with dealer := g.dealer.set_turn card }
    if g1.stage = .WAITING_FOR_TURN then
      match g1.deal_turn with
      | none => .error .fatal
      | some g2 => .ok { g2 with stage := .TURN }
    else .ok g1

/-- `set_river` from game.py: no-op outside manual mode; otherwise forward to
the dealer and, if currently `WAITING_FOR_RIVER`, deal the river and advance
the stage to `RIVER`. -/
def Game.set_river {R : Type} (g : Game R) (card : Nat) : Except GameError (Game R) :=
  if !g.manual_dealer then .ok g
  else
    let g1 := { g with dealer := g.dealer.set_river card }
    if g1.stage = .WAITING_FOR_RIVER then
      match g1.deal_river with
      | none => .error .fatal
      | some g2 => .ok { g2 with stage := .RIVER }
    else .ok g1

/-- The `while players_in_bypass[self.game_pointer]:` scan of `step`:
advance the pointer (wrapping mod `n`) past bypassed seats. The loop is
entered only when a non-bypassed seat exists, so `n` steps of fuel reach it;
out-of-range indices read as non-bypassed (Python would raise there). -/
def seekNonBypass (bypass : List Nat) (n : Nat) : Nat → Nat → Nat
  | gp, 0 => gp
  | gp, fuel + 1 =>
    if bypass.getD gp 0 ≠ 0 then seekNonBypass bypass n ((gp + 1) % n) fuel else gp

/-- The `players_in_bypass` computation of `step`: 1 for FOLDED/ALLIN players,
then — when exactly one player is un-bypassed and their commitment already
meets the maximum — that player is marked bypassed too. List indexing and
`max` are total here via defaults; reachable states stay in range. -/
def bypassVector {R : Type} (ri : RoundIface R) (g : Game R) : List Nat :=
  let bp := g.players.map (fun p =>
    if p.status = .FOLDED ∨ p.status = .ALLIN then 1 else 0)
  if g.num_players - bp.sum = 1 then
    let last := bp.findIdx (· == 0)
    if ((ri.raised g.round).getD last 0) ≥ ((ri.raised g.round).foldl max 0) then
      bp.set last 1
    else bp
  else bp

/-- The `round_counter` if/elif chain at the end of `step`: at 0/1/2, deal
the flop/turn/river (immediately in automatic mode or when the manual preset
is available, setting the revealed stage; otherwise set the matching
WAITING_* stage without dealing); other counters fall through unchanged. -/
def Game.dealStageBranch {R : Type} (g : Game R) : Except GameError (Game R) :=
  if g.round_counter = 0 then
    if g.manual_dealer ∧ ¬ g.dealer.has_preset_cards .flop then
      .ok { g with stage := .WAITING_FOR_FLOP }
    else
      match g.deal_flop with
      | none => .error .fatal
      | some g' => .ok { g' with stage := .FLOP }
  else if g.round_counter = 1 then
    if g.manual_dealer ∧ ¬ g.dealer.has_preset_cards .turn then
      .ok { g with stage := .WAITING_FOR_TURN }
    else
      match g.deal_turn with
      | none => .error .fatal
      | some g' => .ok { g' with stage := .TURN }
  else if g.round_counter = 2 then
    if g.manual_dealer ∧ ¬ g.dealer.has_preset_cards .river then
      .ok { g with stage := .WAITING_FOR_RIVER }
    else
      match g.deal_river with
      | none => .error .fatal
      | some g' => .ok { g' with stage := .RIVER }
  else .ok g

/-- The pointer recomputation at round completion: the seat after the
dealer, advanced past bypassed seats when a non-bypassed seat exists. -/
def recomputedPointer {R : Type} (ri : RoundIface R) (g1 : Game R) : Nat :=
  let bypass := bypassVector ri g1
  let gp0 := (g1.dealer_id + 1) % g1.num_players
  if bypass.sum < g1.num_players then
    seekNonBypass bypass g1.num_players gp0 g1.num_players
  else gp0

/-- The round-completion tail of `step`: recompute the pointer, run the
dealing branch, then increment `round_counter` and start a new betting
round — the last two happen on every completion path, dealt or waiting. -/
def Game.finishBettingRound {R : Type} (ri : RoundIface R) (g1 : Game R) :
    Except GameError (Game R) :=
  let g2 := { g1 with game_pointer := recomputedPointer ri g1 }
  match g2.dealStageBranch with
  | .error e => .error e
  | .ok g3 =>
    .ok { g3 with round_counter := g3.round_counter + 1,
                  round := ri.start_new g3.round g3.game_pointer }

/-- The body of `step` after the waiting/legality checks and the optional
history push: delegate to `proceed_round` and, when the betting round
reports completion, run the completion tail. -/
def Game.stepAfterChecks {R : Type} (ri : RoundIface R) (g : Game R) (a : Action) :
    Except GameError (Game R) :=
  let pr := ri.proceed g.round g.players a
  let g1 := { g with round := pr.1, players := pr.2.1, game_pointer := pr.2.2 }
  if ri.is_over g1.round then g1.finishBettingRound ri
  else .ok g1

/-- `step(action)` from game.py: reject any action in a WAITING_* stage
(IllegalState), reject actions outside the legal set (InvalidAction), push
an undo snapshot when step-back is enabled, then run the transition. -/
def Game.step {R : Type} (ri : RoundIface R) (g : Game R) (a : Action) :
    Except GameError (Game R) :=
  if waitingStage g.stage then .error .illegalState
  else if a ∉ g.get_legal_actions ri then .error .invalidAction
  else
    let g0 :=
      if g.allow_step_back then
        { g with history :=
            (g.round, g.game_pointer, g.round_counter, g.dealer,
             g.public_cards, g.players) :: g.history }
      else g
    g0.stepAfterChecks ri a

/-- `step_back` from game.py: pop the newest history entry, restore the six
recorded fields, recompute `stage` as `Stage(round_counter)`, and report
whether an entry was available (`none` = `Stage(...)` raised). -/
def Game.step_back {R : Type} (g : Game R) : Option (Game R × Bool) :=
  match g.history with
  | [] => some (g, false)
  | (r, b, rc, d, p, ps) :: rest =>
    match stageFromNat rc with
    | none => none
    | some st =>
      some ({ g with round := r, game_pointer := b, round_counter := rc,
                     dealer := d, public_cards := p, players := ps,
                     history := rest, stage := st }, true)

/-- The two-cards-each dealing loop of `init_game`, player ids counting up
from `i` (player-zero presets are honoured inside `Dealer.deal_card`). -/
def dealHands (d : Dealer) (i : Nat) : List Player → Option (Dealer × List Player)
  | [] => some (d, [])
  | p :: rest => do
    let (c1, d1) ← d.deal_card (some i)
    let (c2, d2) ← d1.deal_card (some i)
    let (d3, rest') ← dealHands d2 (i + 1) rest
    return (d3, { p with hand := p.hand ++ [c1, c2] } :: rest')

/-- `init_game` from game.py, with the nondeterminism resolved by parameters:
`did` is the dealer seat after the rotate-or-random choice and `shuffled` the
freshly shuffled deck. Creates a fresh dealer (manual mode and player-zero
presets applied from the configuration), fresh players, deals two cards each,
posts blinds (heads-up: dealer posts the small blind), points to the seat
after the big blind, seeds a new betting round with the committed chips, and
resets `round_counter` and `history`. -/
def Game.init_game {R : Type} (ri : RoundIface R) (g : Game R) (did : Nat)
    (shuffled : List Nat) : Option (Game R) := do
  let d0 : Dealer :=
    { deck := shuffled, preset_player0_hand := [], preset_flop := [],
      preset_turn := none, preset_river := none, current_stage := none,
      manual_mode := false, player0_cards_dealt := 0 }
  let d1 :=
    if g.manual_dealer then
      let dm := d0.enable_manual_mode
      if g.player0_hand ≠ [] then dm.set_player0_hand g.player0_hand else dm
    else d0
  let ps0 := (List.range g.num_players).map (fun i =>
    { player_id := i, hand := [], status := .ALIVE, in_chips := 0,
      remained_chips := g.init_chips.getD i 0 : Player })
  let (d2, ps1) ← dealHands d1 0 ps0
  let s := if g.num_players = 2 then did % g.num_players
           else (did + 1) % g.num_players
  let b := if g.num_players = 2 then (did + 1) % g.num_players
           else (did + 2) % g.num_players
  let ps2 := (ps1.modify (fun p => p.bet g.big_blind) b).modify
    (fun p => p.bet g.small_blind) s
  let gp := (b + 1) % g.num_players
  let r0 := ri.mkRound g.num_players g.big_blind
  let r1 := ri.start_new_raised r0 gp (ps2.map (·.in_chips))
  return { g with dealer_id := did, dealer := d2, players := ps2,
                  public_cards := [], stage := .PREFLOP, game_pointer := gp,
                  round := r1, round_counter := 0, history := [] }

/-! ## Derived notions used by the statements -/

/-- The waiting stage entered at the end of betting round `rc` (0 → flop,
1 → turn, 2 → river) when manual cards are unavailable. -/
def waitingFor : Nat → Option Stage
  | 0 => some .WAITING_FOR_FLOP
  | 1 => some .WAITING_FOR_TURN
  | 2 => some .WAITING_FOR_RIVER
  | _ => none

/-- The revealed stage dealt at the end of betting round `rc`. -/
def revealedFor : Nat → Option Stage
  | 0 => some .FLOP
  | 1 => some .TURN
  | 2 => some .RIVER
  | _ => none

/-- The dealer-stage tag whose preset queue feeds the deal at the end of
betting round `rc`. -/
def cstageFor : Nat → Option CStage
  | 0 => some .flop
  | 1 => some .turn
  | 2 => some .river
  | _ => none

/-- All cards held in the dealer's preset queues. -/
def Dealer.presetCards (d : Dealer) : List Nat :=
  d.preset_player0_hand ++ d.preset_flop ++
    d.preset_turn.toList ++ d.preset_river.toList

/-- All cards already dealt in a game: every player's hand and the board. -/
def Game.dealtCards {R : Type} (g : Game R) : List Nat :=
  (g.players.map Player.hand).flatten ++ g.public_cards

/-- The full multiset of card identities of the spec's no-duplication
invariant: remaining deck ∪ preset queues ∪ dealt cards. -/
def Game.allCards {R : Type} (g : Game R) : List Nat :=
  g.dealer.deck ++ g.dealer.presetCards ++ g.dealtCards

/-- The preset queues are in no conflict with the deck: no queued card is
still in the deck. -/
def Dealer.presetsDisjointDeck (d : Dealer) : Prop :=
  ∀ c ∈ d.presetCards, c ∉ d.deck

/-- The configuration and history fields of the game that `step`'s
transition body never touches. -/
def configEq {R : Type} (g g' : Game R) : Prop :=
  g'.num_players = g.num_players ∧ g'.small_blind = g.small_blind ∧
  g'.big_blind = g.big_blind ∧ g'.init_chips = g.init_chips ∧
  g'.dealer_id = g.dealer_id ∧ g'.player0_hand = g.player0_hand ∧
  g'.manual_dealer = g.manual_dealer ∧
  g'.allow_step_back = g.allow_step_back ∧ g'.history = g.history

/-! ## Concrete instances for witnesses and counterexamples -/

/-- A concrete betting-round interface over `R = Nat` (the round state is a
counter): every action completes the round, `CHECK` is always legal, and
`start_new_round` stamps the round state visibly. -/
def riW : RoundIface Nat :=
  { mkRound := fun _ _ => 0,
    start_new_raised := fun r _ _ => r,
    start_new := fun r gp => r * 100 + gp + 2,
    proceed := fun r ps _ => (r + 1, ps, 0),
    is_over := fun _ => true,
    legal := fun _ _ => [Action.CHECK],
    raised := fun _ => [0, 0] }

/-- A concrete manual-mode dealer with no presets. -/
def dW : Dealer :=
  { deck := [30, 31, 32, 33, 34, 35], preset_player0_hand := [],
    preset_flop := [], preset_turn := none, preset_river := none,
    current_stage := none, manual_mode := true, player0_cards_dealt := 0 }

/-- A concrete two-seat player list. -/
def psW : List Player :=
  [{ player_id := 0, hand := [20, 21], status := .ALIVE, in_chips := 2,
     remained_chips := 198 },
   { player_id := 1, hand := [22, 23], status := .ALIVE, in_chips := 2,
     remained_chips := 198 }]

/-- A concrete manual-mode game at preflop with no preset flop. -/
def gC1 : Game Nat :=
  { num_players := 2, small_blind := 1, big_blind := 2,
    init_chips := [200, 200], dealer_id := 0, player0_hand := [],
    manual_dealer := true, allow_step_back := false, dealer := dW,
    players := psW, public_cards := [], stage := .PREFLOP,
    game_pointer := 1, round := 0, round_counter := 0, history := [] }

/-- A concrete manual-mode game paused in `WAITING_FOR_FLOP`. -/
def gWF : Game Nat :=
  { gC1 with stage := .WAITING_FOR_FLOP, round_counter := 1, round := 7 }

/-- A concrete manual-mode game paused in `WAITING_FOR_TURN`. -/
def gWT : Game Nat :=
  { gC1 with stage := .WAITING_FOR_TURN, round_counter := 2, round := 7,
             public_cards := [10, 11, 12] }

/-- A concrete automatic-mode game at preflop with step-back enabled. -/
def gC4 : Game Nat :=
  { gC1 with manual_dealer := false, allow_step_back := true,
             dealer := { dW with manual_mode := false } }

/-- The state reached from `gC4` by one successful `step`. -/
def gC4s : Game Nat :=
  ((gC4.step riW .CHECK).toOption).getD gC4

/-- The state reached from `gC1` by one successful `step`. -/
def gC1s : Game Nat :=
  ((gC1.step riW .CHECK).toOption).getD gC1

/-- A concrete automatic-mode game in the river betting round. -/
def gRiver : Game Nat :=
  { gC4 with stage := .RIVER, round_counter := 3,
             public_cards := [10, 11, 12, 13, 14] }

/-- A concrete manual-mode game whose player 0 already holds card 20. -/
def gC8 : Game Nat := gC1

/-! ## Theorems -/

/-- Round-trip of the card encoding, case by case over the 52 cards. -/
theorem card_id_roundtrip_aux :
    ∀ s ∈ suit_list, ∀ r ∈ rank_list,
      get_card_id s r < 52 ∧ get_card_from_id (get_card_id s r) = some (s, r) := by
  intro s hs r hr
  fin_cases hs <;> fin_cases hr <;> exact ⟨by decide, by decide⟩

/-- C7: for all 52 valid (suit, rank) pairs, `get_card_id` yields an integer
in 0..51, `get_card_from_id` recovers exactly the original pair, and the
encoding is injective over the 52-card domain. -/
theorem card_encoding_roundtrip_injective :
    ∀ s ∈ suit_list, ∀ r ∈ rank_list,
      get_card_id s r < 52 ∧
      get_card_from_id (get_card_id s r) = some (s, r) ∧
      ∀ s' ∈ suit_list, ∀ r' ∈ rank_list,
        get_card_id s r = get_card_id s' r' → s = s' ∧ r = r' := by
  intro s hs r hr
  obtain ⟨h1, h2⟩ := card_id_roundtrip_aux s hs r hr
  refine ⟨h1, h2, ?_⟩
  intro s' hs' r' hr' heq
  obtain ⟨-, h2'⟩ := card_id_roundtrip_aux s' hs' r' hr'
  rw [heq, h2'] at h2
  simpa [eq_comm] using h2

/-- Witness for C7 at the concrete card seven of hearts. -/
theorem card_encoding_roundtrip_injective_witness :
    get_card_id 'H' '7' < 52 ∧
      get_card_from_id (get_card_id 'H' '7') = some ('H', '7') :=
  ⟨(card_encoding_roundtrip_injective 'H' (by decide) '7' (by decide)).1,
   (card_encoding_roundtrip_injective 'H' (by decide) '7' (by decide)).2.1⟩

/-- C9: in manual mode, `set_flop` fails with InvalidArgument on any
sequence whose length is not exactly 3 (storing nothing, the dealer state
being unchanged on the error path), and on a length-3 sequence stores a
copy and removes each card from the deck where present. -/
theorem dealer_set_flop_length_check (d : Dealer) (cards : List Nat)
    (hm : d.manual_mode = true) :
    (cards.length ≠ 3 → d.set_flop cards = .error .invalidArgument) ∧
    (cards.length = 3 → d.set_flop cards =
      .ok { d with preset_flop := cards, deck := removeEach d.deck cards }) := by
  constructor <;> intro h <;> simp [Dealer.set_flop, hm, h]

/-- Witness for C9 at a concrete manual dealer, with a length-2 and a
length-3 flop. -/
theorem dealer_set_flop_length_check_witness :
    (dW.set_flop [7, 8] = .error .invalidArgument) ∧
    (dW.set_flop [31, 7, 8] =
      .ok { dW with preset_flop := [31, 7, 8],
                    deck := removeEach dW.deck [31, 7, 8] }) :=
  ⟨(dealer_set_flop_length_check dW [7, 8] rfl).1 (by decide),
   (dealer_set_flop_length_check dW [31, 7, 8] rfl).2 rfl⟩

/-- C10: outside manual mode the game-level `set_flop` returns normally and
changes no state, for an input list of any length — the mode check precedes
the length validation, which is reachable only in manual mode. -/
theorem game_set_flop_automatic_noop {R : Type} (g : Game R) (cards : List Nat)
    (h : g.manual_dealer = false) : g.set_flop cards = .ok g := by
  simp [Game.set_flop, h]

/-- Witness for C10 at a concrete automatic-mode game and a length-4 list. -/
theorem game_set_flop_automatic_noop_witness :
    gC4.set_flop [1, 2, 3, 4] = .ok gC4 :=
  game_set_flop_automatic_noop gC4 [1, 2, 3, 4] rfl

/-- C3: in each of the three waiting stages, `get_legal_actions` is empty
and `step` fails with IllegalState for every action; the error is raised
before any mutation, so the state is unchanged (the transition relation
produces no successor). -/
theorem waiting_stage_rejects {R : Type} (ri : RoundIface R) (g : Game R)
    (h : g.stage = .WAITING_FOR_FLOP ∨ g.stage = .WAITING_FOR_TURN ∨
         g.stage = .WAITING_FOR_RIVER) :
    g.get_legal_actions ri = [] ∧
      ∀ a : Action, g.step ri a = .error .illegalState := by
  have hw : waitingStage g.stage = true := by
    rcases h with h | h | h <;> rw [h] <;> rfl
  exact ⟨by simp [Game.get_legal_actions, hw], fun a => by simp [Game.step, hw]⟩

/-- Witness for C3 at a concrete game paused in `WAITING_FOR_FLOP`. -/
theorem waiting_stage_rejects_witness :
    gWF.get_legal_actions riW = [] ∧
      gWF.step riW .CHECK = .error .illegalState :=
  ⟨(waiting_stage_rejects riW gWF (Or.inl rfl)).1,
   (waiting_stage_rejects riW gWF (Or.inl rfl)).2 .CHECK⟩

/-- C6: in any non-waiting stage, an action outside `get_legal_actions`
makes `step` fail with InvalidAction; the error is raised before the
snapshot push and before `proceed_round`, so round, game_pointer,
round_counter, card source, public cards, players and history are all
unchanged (the transition relation produces no successor). -/
theorem invalid_action_rejected {R : Type} (ri : RoundIface R) (g : Game R)
    (a : Action) (hw : waitingStage g.stage = false)
    (hl : a ∉ g.get_legal_actions ri) :
    g.step ri a = .error .invalidAction := by
  simp [Game.step, hw, hl]

/-- Witness for C6: folding when only a check is legal is rejected. -/
theorem invalid_action_rejected_witness :
    gC1.step riW .FOLD = .error .invalidAction :=
  invalid_action_rejected riW gC1 .FOLD rfl (by decide)

/-- At the end of betting round 0/1/2 in manual mode with the matching
preset unavailable, the dealing branch only sets the waiting stage. -/
theorem dealStageBranch_waiting {R : Type} (g : Game R) (cs : CStage) (ws : Stage)
    (hm : g.manual_dealer = true)
    (hcs : cstageFor g.round_counter = some cs)
    (hws : waitingFor g.round_counter = some ws)
    (hnp : g.dealer.has_preset_cards cs = false) :
    g.dealStageBranch = .ok { g with stage := ws } := by
  rcases hrc : g.round_counter with _ | (_ | (_ | n)) <;>
    rw [hrc] at hcs hws <;> simp [cstageFor, waitingFor] at hcs hws <;>
    subst hcs <;> subst hws <;>
    simp [Game.dealStageBranch, hrc, hm, hnp]

/-- On the waiting path, the completion tail only repoints, sets the waiting
stage, and still increments the counter and starts a new betting round. -/
theorem finishBettingRound_waiting {R : Type} (ri : RoundIface R) (g1 : Game R)
    (cs : CStage) (ws : Stage)
    (hm : g1.manual_dealer = true)
    (hcs : cstageFor g1.round_counter = some cs)
    (hws : waitingFor g1.round_counter = some ws)
    (hnp : g1.dealer.has_preset_cards cs = false) :
    g1.finishBettingRound ri = .ok
      { g1 with game_pointer := recomputedPointer ri g1, stage := ws,
                round_counter := g1.round_counter + 1,
                round := ri.start_new g1.round (recomputedPointer ri g1) } := by
  have hbr := dealStageBranch_waiting (R := R)
      { g1 with game_pointer := recomputedPointer ri g1 } cs ws hm hcs hws hnp
  simp [Game.finishBettingRound, hbr]

/-- The transition body on the waiting path: explicit resulting state. -/
theorem stepAfterChecks_waiting {R : Type} (ri : RoundIface R) (g : Game R)
    (a : Action) (cs : CStage) (ws : Stage)
    (hover : ri.is_over (ri.proceed g.round g.players a).1 = true)
    (hm : g.manual_dealer = true)
    (hcs : cstageFor g.round_counter = some cs)
    (hws : waitingFor g.round_counter = some ws)
    (hnp : g.dealer.has_preset_cards cs = false) :
    ∃ g', g.stepAfterChecks ri a = .ok g' ∧ g'.stage = ws ∧
      g'.public_cards = g.public_cards ∧ g'.dealer = g.dealer ∧
      g'.round_counter = g.round_counter + 1 ∧ g'.history = g.history ∧
      g'.round = ri.start_new (ri.proceed g.round g.players a).1 g'.game_pointer := by
  have hfin := finishBettingRound_waiting ri
      { g with round := (ri.proceed g.round g.players a).1,
               players := (ri.proceed g.round g.players a).2.1,
               game_pointer := (ri.proceed g.round g.players a).2.2 }
      cs ws hm hcs hws hnp
  have hsac : g.stepAfterChecks ri a =
      Game.finishBettingRound ri
        { g with round := (ri.proceed g.round g.players a).1,
                 players := (ri.proceed g.round g.players a).2.1,
                 game_pointer := (ri.proceed g.round g.players a).2.2 } := by
    simp [Game.stepAfterChecks, hover]
  exact ⟨_, hsac.trans hfin, rfl, rfl, rfl, rfl, rfl, rfl⟩

/-- C1 (corrected): when a betting round completes during `step` in manual
mode with the pending cards for the next stage unavailable, `step` sets the
matching WAITING_* stage and deals no cards (board and card source are
untouched) — but, contrary to the claim, it still increments
`round_counter` and starts a new betting round at the recomputed pointer:
the increment and restart run on every completion path, not only when
community cards were actually dealt. -/
theorem step_waiting_transition {R : Type} (ri : RoundIface R) (g : Game R)
    (a : Action) (cs : CStage) (ws : Stage)
    (hw : waitingStage g.stage = false)
    (hl : a ∈ g.get_legal_actions ri)
    (hover : ri.is_over (ri.proceed g.round g.players a).1 = true)
    (hm : g.manual_dealer = true)
    (hcs : cstageFor g.round_counter = some cs)
    (hws : waitingFor g.round_counter = some ws)
    (hnp : g.dealer.has_preset_cards cs = false) :
    ∃ g', g.step ri a = .ok g' ∧ g'.stage = ws ∧
      g'.public_cards = g.public_cards ∧ g'.dealer = g.dealer ∧
      g'.round_counter = g.round_counter + 1 ∧
      g'.round = ri.start_new (ri.proceed g.round g.players a).1 g'.game_pointer := by
  cases hab : g.allow_step_back with
  | false =>
    obtain ⟨g', h1, h2, h3, h4, h5, h6, h7⟩ :=
      stepAfterChecks_waiting ri g a cs ws hover hm hcs hws hnp
    refine ⟨g', ?_, h2, h3, h4, h5, h7⟩
    simpa [Game.step, hw, hl, hab] using h1
  | true =>
    obtain ⟨g', h1, h2, h3, h4, h5, h6, h7⟩ :=
      stepAfterChecks_waiting ri
        { g with history :=
            (g.round, g.game_pointer, g.round_counter, g.dealer,
             g.public_cards, g.players) :: g.history }
        a cs ws hover hm hcs hws hnp
    refine ⟨g', ?_, h2, h3, h4, h5, h7⟩
    simpa [Game.step, hw, hl, hab] using h1

/-- Counterexample to C1 as stated: from a concrete manual-mode preflop game
with no preset flop, a round-completing `step` enters `WAITING_FOR_FLOP`
and deals nothing, yet `round_counter` moves from 0 to 1 and the round
state is restamped by `start_new_round` (7 would have stayed 7). -/
theorem step_waiting_transition_cex :
    gC1.round_counter = 0 ∧ gC1.round = 0 ∧
      (gC1.step riW .CHECK).map
        (fun g' => (g'.stage, g'.public_cards, g'.round_counter, g'.round)) =
      .ok (Stage.WAITING_FOR_FLOP, [], 1, 103) := by
  refine ⟨rfl, rfl, ?_⟩
  rfl

/-- Witness for the corrected C1 at the concrete game `gC1`. -/
theorem step_waiting_transition_witness :
    gC1.step riW .CHECK = .ok gC1s ∧ gC1s.stage = .WAITING_FOR_FLOP ∧
      gC1s.public_cards = gC1.public_cards ∧ gC1s.dealer = gC1.dealer ∧
      gC1s.round_counter = gC1.round_counter + 1 ∧
      gC1s.round = riW.start_new (riW.proceed gC1.round gC1.players .CHECK).1
        gC1s.game_pointer := by
  obtain ⟨g', h1, h2, h3, h4, h5, h6⟩ :=
    step_waiting_transition riW gC1 .CHECK .flop .WAITING_FOR_FLOP rfl
      (by decide) rfl rfl rfl rfl rfl
  have hg : g' = gC1s := by
    have hs : gC1.step riW .CHECK = .ok gC1s := by rfl
    rw [h1] at hs
    exact Except.ok.inj hs
  subst hg
  exact ⟨h1, h2, h3, h4, h5, h6⟩

/-- C2 (corrected): in manual mode, calling the matching setter from a
WAITING_* stage immediately performs the deferred deal and advances the
stage to the corresponding revealed stage, so play resumes — but, contrary
to the claim, the setter neither increments `round_counter` nor starts a
new betting round: `step` already did both when it entered the waiting
stage (the setters take no betting-round interface at all, and leave the
round state, the pointer and the players untouched). -/
theorem setters_resume_without_restart {R : Type} (g : Game R)
    (hm : g.manual_dealer = true) (hdm : g.dealer.manual_mode = true) :
    (∀ a b c : Nat, g.stage = .WAITING_FOR_FLOP →
      (g.set_flop [a, b, c]).map (fun g' =>
        (g'.stage, g'.public_cards, g'.round_counter, g'.round,
         g'.game_pointer, g'.players)) =
      .ok (.FLOP, g.public_cards ++ [a, b, c], g.round_counter, g.round,
           g.game_pointer, g.players)) ∧
    (∀ c : Nat, g.stage = .WAITING_FOR_TURN →
      (g.set_turn c).map (fun g' =>
        (g'.stage, g'.public_cards, g'.round_counter, g'.round,
         g'.game_pointer, g'.players)) =
      .ok (.TURN, g.public_cards ++ [c], g.round_counter, g.round,
           g.game_pointer, g.players)) ∧
    (∀ c : Nat, g.stage = .WAITING_FOR_RIVER →
      (g.set_river c).map (fun g' =>
        (g'.stage, g'.public_cards, g'.round_counter, g'.round,
         g'.game_pointer, g'.players)) =
      .ok (.RIVER, g.public_cards ++ [c], g.round_counter, g.round,
           g.game_pointer, g.players)) := by
  refine ⟨?_, ?_, ?_⟩
  · intro a b c hst
    simp [Game.set_flop, Dealer.set_flop, Game.deal_flop, Dealer.deal_card,
          Except.map, hm, hdm, hst]
  · intro c hst
    simp [Game.set_turn, Dealer.set_turn, Game.deal_turn, Dealer.deal_card,
          Except.map, hm, hdm, hst]
  · intro c hst
    simp [Game.set_river, Dealer.set_river, Game.deal_river, Dealer.deal_card,
          Except.map, hm, hdm, hst]

/-- Counterexample to C2 as stated: at a concrete game paused in
`WAITING_FOR_TURN` with `round_counter = 2` and round state 7, `set_turn`
resumes to stage TURN but leaves `round_counter` at 2 (the claim requires
3) and the round state at 7 (no new betting round is started). -/
theorem setters_resume_without_restart_cex :
    gWT.round_counter = 2 ∧ gWT.round = 7 ∧
      (gWT.set_turn 40).map
        (fun g' => (g'.stage, g'.public_cards, g'.round_counter, g'.round)) =
      .ok (Stage.TURN, [10, 11, 12, 40], 2, 7) := by
  refine ⟨rfl, rfl, ?_⟩
  rfl

/-- Witness for the corrected C2 at the concrete game `gWT`. -/
theorem setters_resume_without_restart_witness :
    (gWT.set_turn 40).map (fun g' =>
      (g'.stage, g'.public_cards, g'.round_counter, g'.round,
       g'.game_pointer, g'.players)) =
    .ok (.TURN, gWT.public_cards ++ [40], gWT.round_counter, gWT.round,
         gWT.game_pointer, gWT.players) :=
  (setters_resume_without_restart gWT rfl rfl).2.1 40 rfl

/-- Two game states with all sixteen fields equal are equal. -/
theorem Game.eq_of_fields {R : Type} (g g' : Game R)
    (h1 : g'.num_players = g.num_players) (h2 : g'.small_blind = g.small_blind)
    (h3 : g'.big_blind = g.big_blind) (h4 : g'.init_chips = g.init_chips)
    (h5 : g'.dealer_id = g.dealer_id) (h6 : g'.player0_hand = g.player0_hand)
    (h7 : g'.manual_dealer = g.manual_dealer)
    (h8 : g'.allow_step_back = g.allow_step_back)
    (h9 : g'.dealer = g.dealer) (h10 : g'.players = g.players)
    (h11 : g'.public_cards = g.public_cards) (h12 : g'.stage = g.stage)
    (h13 : g'.game_pointer = g.game_pointer) (h14 : g'.round = g.round)
    (h15 : g'.round_counter = g.round_counter) (h16 : g'.history = g.history) :
    g' = g := by
  cases g
  cases g'
  simp_all

/-- `_deal_flop` only touches the dealer and the board. -/
theorem deal_flop_fields {R : Type} (g g' : Game R) (h : g.deal_flop = some g') :
    configEq g g' ∧ g'.stage = g.stage ∧ g'.round_counter = g.round_counter ∧
      g'.round = g.round ∧ g'.game_pointer = g.game_pointer ∧
      g'.players = g.players := by
  unfold Game.deal_flop at h
  repeat' split at h
  all_goals simp at h
  all_goals subst h
  all_goals simp [configEq]

/-- `_deal_turn` only touches the dealer and the board. -/
theorem deal_turn_fields {R : Type} (g g' : Game R) (h : g.deal_turn = some g') :
    configEq g g' ∧ g'.stage = g.stage ∧ g'.round_counter = g.round_counter ∧
      g'.round = g.round ∧ g'.game_pointer = g.game_pointer ∧
      g'.players = g.players := by
  unfold Game.deal_turn at h
  repeat' split at h
  all_goals simp at h
  all_goals subst h
  all_goals simp [configEq]

/-- `_deal_river` only touches the dealer and the board. -/
theorem deal_river_fields {R : Type} (g g' : Game R) (h : g.deal_river = some g') :
    configEq g g' ∧ g'.stage = g.stage ∧ g'.round_counter = g.round_counter ∧
      g'.round = g.round ∧ g'.game_pointer = g.game_pointer ∧
      g'.players = g.players := by
  unfold Game.deal_river at h
  repeat' split at h
  all_goals simp at h
  all_goals subst h
  all_goals simp [configEq]

/-- The dealing branch leaves configuration, history, counter, round,
pointer and players unchanged. -/
theorem dealStageBranch_fields {R : Type} (g g' : Game R)
    (h : g.dealStageBranch = .ok g') :
    configEq g g' ∧ g'.round_counter = g.round_counter ∧ g'.round = g.round ∧
      g'.game_pointer = g.game_pointer ∧ g'.players = g.players := by
  unfold Game.dealStageBranch at h
  split at h
  · split at h
    · injection h with h
      subst h
      simp [configEq]
    · split at h
      · exact absurd h (by simp)
      · rename_i g1 heq
        obtain ⟨hc, -, hrc, hr, hgp, hps⟩ := deal_flop_fields g g1 heq
        injection h with h
        subst h
        exact ⟨by simp [configEq] at hc ⊢; exact hc, by simp [hrc],
               by simp [hr], by simp [hgp], by simp [hps]⟩
  · split at h
    · split at h
      · injection h with h
        subst h
        simp [configEq]
      · split at h
        · exact absurd h (by simp)
        · rename_i g1 heq
          obtain ⟨hc, -, hrc, hr, hgp, hps⟩ := deal_turn_fields g g1 heq
          injection h with h
          subst h
          exact ⟨by simp [configEq] at hc ⊢; exact hc, by simp [hrc],
                 by simp [hr], by simp [hgp], by simp [hps]⟩
    · split at h
      · split at h
        · injection h with h
          subst h
          simp [configEq]
        · split at h
          · exact absurd h (by simp)
          · rename_i g1 heq
            obtain ⟨hc, -, hrc, hr, hgp, hps⟩ := deal_river_fields g g1 heq
            injection h with h
            subst h
            exact ⟨by simp [configEq] at hc ⊢; exact hc, by simp [hrc],
                   by simp [hr], by simp [hgp], by simp [hps]⟩
      · injection h with h
        subst h
        simp [configEq]

/-- The completion tail preserves configuration and history and increments
the counter by exactly one. -/
theorem finishBettingRound_fields {R : Type} (ri : RoundIface R) (g g' : Game R)
    (h : g.finishBettingRound ri = .ok g') :
    configEq g g' ∧ g'.round_counter = g.round_counter + 1 := by
  simp only [Game.finishBettingRound] at h
  split at h
  · exact absurd h (by simp)
  · rename_i g3 heq
    obtain ⟨hc, hrc, -, -, -⟩ := dealStageBranch_fields _ _ heq
    injection h with h
    subst h
    obtain ⟨c1, c2, c3, c4, c5, c6, c7, c8, c9⟩ := hc
    refine ⟨⟨by simpa using c1, by simpa using c2, by simpa using c3,
            by simpa using c4, by simpa using c5, by simpa using c6,
            by simpa using c7, by simpa using c8, by simpa using c9⟩, ?_⟩
    simpa using hrc

/-- The transition body preserves configuration and history and increments
the counter by at most one. -/
theorem stepAfterChecks_fields {R : Type} (ri : RoundIface R) (g g' : Game R)
    (a : Action) (h : g.stepAfterChecks ri a = .ok g') :
    configEq g g' ∧
      (g'.round_counter = g.round_counter ∨
       g'.round_counter = g.round_counter + 1) := by
  simp only [Game.stepAfterChecks] at h
  split at h
  · obtain ⟨⟨c1, c2, c3, c4, c5, c6, c7, c8, c9⟩, hrc⟩ :=
      finishBettingRound_fields ri _ _ h
    exact ⟨⟨by simpa using c1, by simpa using c2, by simpa using c3,
            by simpa using c4, by simpa using c5, by simpa using c6,
            by simpa using c7, by simpa using c8, by simpa using c9⟩,
           Or.inr (by simpa using hrc)⟩
  · injection h with h
    subst h
    simp [configEq]

/-- C4: with step-back enabled, after a successful `step` from any state
whose stage agrees with its round counter (true of every state in which an
action can be taken), `step_back` pops the pushed history entry, restores
round, game_pointer, round_counter, card source, public cards and players,
recomputes the stage from the restored counter, and returns true — the
resulting state is identical to the state exactly before the `step`; with
empty history, `step_back` returns false and leaves the state unchanged. -/
theorem step_back_undoes {R : Type} (ri : RoundIface R) (g : Game R) (a : Action)
    (g' : Game R) (hb : g.allow_step_back = true)
    (hst : stageFromNat g.round_counter = some g.stage)
    (h : g.step ri a = .ok g') :
    g'.step_back = some (g, true) ∧
      ∀ g0 : Game R, g0.history = [] → g0.step_back = some (g0, false) := by
  refine ⟨?_, fun g0 h0 => by simp [Game.step_back, h0]⟩
  simp only [Game.step] at h
  split at h
  · simp at h
  · split at h
    · simp at h
    · obtain ⟨⟨c1, c2, c3, c4, c5, c6, c7, c8, c9⟩, -⟩ :=
        stepAfterChecks_fields ri _ g' a h
      have c9' : g'.history =
          (g.round, g.game_pointer, g.round_counter, g.dealer,
           g.public_cards, g.players) :: g.history := by simpa using c9
      have hrec : ({ g' with
          round := g.round
          game_pointer := g.game_pointer
          round_counter := g.round_counter
          dealer := g.dealer
          public_cards := g.public_cards
          players := g.players
          history := g.history
          stage := g.stage } : Game R) = g :=
        Game.eq_of_fields _ _ (by simpa using c1) (by simpa using c2)
          (by simpa using c3) (by simpa using c4) (by simpa using c5)
          (by simpa using c6) (by simpa using c7) (by simpa using c8)
          rfl rfl rfl rfl rfl rfl rfl rfl
      simp only [Game.step_back, c9', hst]
      rw [hrec]

/-- Witness for C4: one concrete automatic-mode step from `gC4` undone by
`step_back`, and `step_back` on the fresh (empty-history) state. -/
theorem step_back_undoes_witness :
    gC4s.step_back = some (gC4, true) ∧ gC4.step_back = some (gC4, false) := by
  have h : gC4.step riW .CHECK = .ok gC4s := by rfl
  have hh := step_back_undoes riW gC4 .CHECK gC4s rfl rfl h
  exact ⟨hh.1, hh.2 gC4 rfl⟩

/-- A successful `step` changes `round_counter` by zero or one. -/
theorem step_round_counter {R : Type} (ri : RoundIface R) (g g' : Game R)
    (a : Action) (h : g.step ri a = .ok g') :
    g'.round_counter = g.round_counter ∨
      g'.round_counter = g.round_counter + 1 := by
  simp only [Game.step] at h
  split at h
  · simp at h
  · split at h
    · simp at h
    · split at h
      · obtain ⟨-, hrc⟩ := stepAfterChecks_fields ri _ g' a h
        simpa using hrc
      · obtain ⟨-, hrc⟩ := stepAfterChecks_fields ri _ g' a h
        simpa using hrc

/-- A successful game-level `set_flop` leaves `round_counter` unchanged. -/
theorem set_flop_round_counter {R : Type} (g g' : Game R) (cards : List Nat)
    (h : g.set_flop cards = .ok g') :
    g'.round_counter = g.round_counter := by
  simp only [Game.set_flop] at h
  split at h
  · injection h with h
    subst h
    rfl
  · split at h
    · simp at h
    · split at h
      · split at h
        · simp at h
        · rename_i d hd g2 hdeal
          obtain ⟨-, -, hrc, -, -, -⟩ := deal_flop_fields _ g2 hdeal
          injection h with h
          subst h
          simpa using hrc
      · injection h with h
        subst h
        rfl

/-- A successful game-level `set_turn` leaves `round_counter` unchanged. -/
theorem set_turn_round_counter {R : Type} (g g' : Game R) (c : Nat)
    (h : g.set_turn c = .ok g') :
    g'.round_counter = g.round_counter := by
  simp only [Game.set_turn] at h
  split at h
  · injection h with h
    subst h
    rfl
  · split at h
    · split at h
      · simp at h
      · rename_i g2 hdeal
        obtain ⟨-, -, hrc, -, -, -⟩ := deal_turn_fields _ g2 hdeal
        injection h with h
        subst h
        simpa using hrc
    · injection h with h
      subst h
      rfl

/-- A successful game-level `set_river` leaves `round_counter` unchanged. -/
theorem set_river_round_counter {R : Type} (g g' : Game R) (c : Nat)
    (h : g.set_river c = .ok g') :
    g'.round_counter = g.round_counter := by
  simp only [Game.set_river] at h
  split at h
  · injection h with h
    subst h
    rfl
  · split at h
    · split at h
      · simp at h
      · rename_i g2 hdeal
        obtain ⟨-, -, hrc, -, -, -⟩ := deal_river_fields _ g2 hdeal
        injection h with h
        subst h
        simpa using hrc
    · injection h with h
      subst h
      rfl

/-- C5 (corrected): within a hand, `round_counter` starts at 0 at
`init_game`, never decreases across `step` and the three setters, and
changes by at most one per `step`; it takes the values 0,1,2,3 and also 4 —
the step completing the river betting round still increments it, so 4 marks
the end of the hand (contrary to the claim that only 0–3 occur). -/
theorem round_counter_monotone {R : Type} (ri : RoundIface R) :
    (∀ (g : Game R) (did : Nat) (shuffled : List Nat) (gi : Game R),
       g.init_game ri did shuffled = some gi → gi.round_counter = 0) ∧
    (∀ (g g' : Game R) (a : Action), g.step ri a = .ok g' →
       (g'.round_counter = g.round_counter ∨
        g'.round_counter = g.round_counter + 1) ∧
       (g.round_counter ≤ 3 → g'.round_counter ≤ 4)) ∧
    (∀ (g g' : Game R) (cards : List Nat), g.set_flop cards = .ok g' →
       g'.round_counter = g.round_counter) ∧
    (∀ (g g' : Game R) (c : Nat), g.set_turn c = .ok g' →
       g'.round_counter = g.round_counter) ∧
    (∀ (g g' : Game R) (c : Nat), g.set_river c = .ok g' →
       g'.round_counter = g.round_counter) := by
  refine ⟨?_, ?_, ?_, ?_, ?_⟩
  · intro g did shuffled gi h
    simp only [Game.init_game] at h
    rw [Option.bind_eq_bind', Option.bind_eq_some'] at h
    obtain ⟨a, -, h⟩ := h
    simp only [Option.pure_def, Option.some.injEq] at h
    subst h
    rfl
  · intro g g' a h
    have hd := step_round_counter ri g g' a h
    refine ⟨hd, fun h3 => ?_⟩
    rcases hd with hd | hd <;> omega
  · intro g g' cards h
    exact set_flop_round_counter g g' cards h
  · intro g g' c h
    exact set_turn_round_counter g g' c h
  · intro g g' c h
    exact set_river_round_counter g g' c h

/-- Counterexample to C5 as stated: at a concrete game in the river betting
round (`round_counter = 3`), the round-completing `step` sets
`round_counter` to 4, outside the claimed value set {0,1,2,3}. -/
theorem round_counter_reaches_four_cex :
    gRiver.round_counter = 3 ∧
      (gRiver.step riW .CHECK).map (fun g' => g'.round_counter) = .ok 4 := by
  refine ⟨rfl, ?_⟩
  rfl

/-- Witness for the corrected C5 at one concrete step from `gC4`. -/
theorem round_counter_monotone_witness :
    (gC4s.round_counter = gC4.round_counter ∨
      gC4s.round_counter = gC4.round_counter + 1) ∧ gC4s.round_counter ≤ 4 := by
  have h : gC4.step riW .CHECK = .ok gC4s := by rfl
  have hh := (round_counter_monotone riW).2.1 gC4 gC4s .CHECK h
  exact ⟨hh.1, hh.2 (by decide)⟩

/-- Removing each card in turn yields a sublist of the deck. -/
theorem removeEach_sublist (deck cards : List Nat) :
    List.Sublist (removeEach deck cards) deck := by
  induction cards generalizing deck with
  | nil => exact List.Sublist.refl _
  | cons x xs ih => exact (ih (deck.erase x)).trans (deck.erase_sublist x)

/-- Cards not in the deck stay out after `removeEach`. -/
theorem not_mem_removeEach_of_not_mem (deck cards : List Nat) (c : Nat)
    (h : c ∉ deck) : c ∉ removeEach deck cards :=
  fun hc => h ((removeEach_sublist deck cards).subset hc)

/-- In a duplicate-free deck, every removed card is gone afterwards. -/
theorem mem_cards_not_mem_removeEach (deck cards : List Nat) (c : Nat)
    (hnd : deck.Nodup) (hc : c ∈ cards) : c ∉ removeEach deck cards := by
  induction cards generalizing deck with
  | nil => cases hc
  | cons x xs ih =>
    show c ∉ removeEach (deck.erase x) xs
    rcases List.mem_cons.mp hc with rfl | hc'
    · have hce : c ∉ deck.erase c :=
        fun hmem => ((List.Nodup.mem_erase_iff hnd).mp hmem).1 rfl
      exact not_mem_removeEach_of_not_mem _ xs c hce
    · exact ih (deck.erase x) (hnd.erase x) hc'

/-- C8 (corrected): the card source keeps its preset queues disjoint from
its (duplicate-free) deck across every operation — queuing removes the
cards from the deck atomically, and dealing removes the dealt card from
deck and queues — but nothing checks caller-supplied presets against cards
already dealt, so the global at-most-once property over deck ∪ presets ∪
dealt holds only when presets avoid already-dealt cards. -/
theorem dealer_presets_disjoint_deck (d : Dealer)
    (hnd : d.deck.Nodup) (hdisj : d.presetsDisjointDeck) :
    (∀ cards : List Nat, (d.set_player0_hand cards).deck.Nodup ∧
       (d.set_player0_hand cards).presetsDisjointDeck) ∧
    (∀ (cards : List Nat) (d' : Dealer), d.set_flop cards = .ok d' →
       d'.deck.Nodup ∧ d'.presetsDisjointDeck) ∧
    (∀ c : Nat, (d.set_turn c).deck.Nodup ∧
       (d.set_turn c).presetsDisjointDeck) ∧
    (∀ c : Nat, (d.set_river c).deck.Nodup ∧
       (d.set_river c).presetsDisjointDeck) ∧
    (∀ (pid : Option Nat) (c : Nat) (d' : Dealer),
       d.deal_card pid = some (c, d') →
       d'.deck.Nodup ∧ d'.presetsDisjointDeck ∧ c ∉ d'.deck) := by
  refine ⟨?_, ?_, ?_, ?_, ?_⟩
  · intro cards
    unfold Dealer.set_player0_hand
    split
    · exact ⟨hnd, hdisj⟩
    · refine ⟨(removeEach_sublist _ _).nodup hnd, ?_⟩
      intro c hc
      simp only [Dealer.presetCards, List.mem_append] at hc
      rcases hc with ((hc | hc) | hc) | hc
      · exact mem_cards_not_mem_removeEach _ _ _ hnd hc
      · exact not_mem_removeEach_of_not_mem _ _ _
          (hdisj c (by simp [Dealer.presetCards, hc]))
      · exact not_mem_removeEach_of_not_mem _ _ _
          (hdisj c (by simp [Dealer.presetCards, hc]))
      · exact not_mem_removeEach_of_not_mem _ _ _
          (hdisj c (by simp [Dealer.presetCards, hc]))
  · intro cards d' h
    unfold Dealer.set_flop at h
    split at h
    · injection h with h
      subst h
      exact ⟨hnd, hdisj⟩
    · split at h
      · simp at h
      · injection h with h
        subst h
        refine ⟨(removeEach_sublist _ _).nodup hnd, ?_⟩
        intro c hc
        simp only [Dealer.presetCards, List.mem_append] at hc
        rcases hc with ((hc | hc) | hc) | hc
        · exact not_mem_removeEach_of_not_mem _ _ _
            (hdisj c (by simp [Dealer.presetCards, hc]))
        · exact mem_cards_not_mem_removeEach _ _ _ hnd hc
        · exact not_mem_removeEach_of_not_mem _ _ _
            (hdisj c (by simp [Dealer.presetCards, hc]))
        · exact not_mem_removeEach_of_not_mem _ _ _
            (hdisj c (by simp [Dealer.presetCards, hc]))
  · intro card
    unfold Dealer.set_turn
    split
    · exact ⟨hnd, hdisj⟩
    · refine ⟨hnd.erase card, ?_⟩
      intro c hc
      simp only [Dealer.presetCards, List.mem_append, Option.toList_some,
        List.mem_singleton] at hc
      rcases hc with ((hc | hc) | hc) | hc
      · exact fun hm => hdisj c (by simp [Dealer.presetCards, hc])
          ((d.deck.erase_sublist card).subset hm)
      · exact fun hm => hdisj c (by simp [Dealer.presetCards, hc])
          ((d.deck.erase_sublist card).subset hm)
      · subst hc
        exact fun hm => ((List.Nodup.mem_erase_iff hnd).mp hm).1 rfl
      · exact fun hm => hdisj c (by simp [Dealer.presetCards, hc])
          ((d.deck.erase_sublist card).subset hm)
  · intro card
    unfold Dealer.set_river
    split
    · exact ⟨hnd, hdisj⟩
    · refine ⟨hnd.erase card, ?_⟩
      intro c hc
      simp only [Dealer.presetCards, List.mem_append, Option.toList_some,
        List.mem_singleton] at hc
      rcases hc with ((hc | hc) | hc) | hc
      · exact fun hm => hdisj c (by simp [Dealer.presetCards, hc])
          ((d.deck.erase_sublist card).subset hm)
      · exact fun hm => hdisj c (by simp [Dealer.presetCards, hc])
          ((d.deck.erase_sublist card).subset hm)
      · exact fun hm => hdisj c (by simp [Dealer.presetCards, hc])
          ((d.deck.erase_sublist card).subset hm)
      · subst hc
        exact fun hm => ((List.Nodup.mem_erase_iff hnd).mp hm).1 rfl
  · intro pid c d' h
    unfold Dealer.deal_card at h
    split at h
    · split at h
      · simp at h
      · rename_i c0 rest hq
        injection h with h
        obtain ⟨rfl, rfl⟩ := Prod.mk.injEq .. ▸ And.intro (congrArg Prod.fst h)
          (congrArg Prod.snd h)
        refine ⟨hnd, ?_, ?_⟩
        · intro x hx
          refine hdisj x ?_
          simp only [Dealer.presetCards, List.mem_append] at hx ⊢
          rcases hx with ((hx | hx) | hx) | hx
          · exact Or.inl (Or.inl (Or.inl (by simp [hq, hx])))
          · exact Or.inl (Or.inl (Or.inr hx))
          · exact Or.inl (Or.inr hx)
          · exact Or.inr hx
        · exact hdisj c (by simp [Dealer.presetCards, hq])
    · split at h
      · split at h
        · simp at h
        · rename_i c0 rest hq
          injection h with h
          obtain ⟨rfl, rfl⟩ := Prod.mk.injEq .. ▸ And.intro
            (congrArg Prod.fst h) (congrArg Prod.snd h)
          refine ⟨hnd, ?_, ?_⟩
          · intro x hx
            refine hdisj x ?_
            simp only [Dealer.presetCards, List.mem_append] at hx ⊢
            rcases hx with ((hx | hx) | hx) | hx
            · exact Or.inl (Or.inl (Or.inl hx))
            · exact Or.inl (Or.inl (Or.inr (by simp [hq, hx])))
            · exact Or.inl (Or.inr hx)
            · exact Or.inr hx
          · exact hdisj c (by simp [Dealer.presetCards, hq])
      · split at h
        · split at h
          · simp at h
          · rename_i tcard hq
            injection h with h
            obtain ⟨rfl, rfl⟩ := Prod.mk.injEq .. ▸ And.intro
              (congrArg Prod.fst h) (congrArg Prod.snd h)
            refine ⟨hnd, ?_, ?_⟩
            · intro x hx
              refine hdisj x ?_
              simp only [Dealer.presetCards, List.mem_append] at hx ⊢
              rcases hx with ((hx | hx) | hx) | hx
              · exact Or.inl (Or.inl (Or.inl hx))
              · exact Or.inl (Or.inl (Or.inr hx))
              · simp at hx
              · exact Or.inr hx
            · exact hdisj c (by simp [Dealer.presetCards, hq])
        · split at h
          · split at h
            · simp at h
            · rename_i rcard hq
              injection h with h
              obtain ⟨rfl, rfl⟩ := Prod.mk.injEq .. ▸ And.intro
                (congrArg Prod.fst h) (congrArg Prod.snd h)
              refine ⟨hnd, ?_, ?_⟩
              · intro x hx
                refine hdisj x ?_
                simp only [Dealer.presetCards, List.mem_append] at hx ⊢
                rcases hx with ((hx | hx) | hx) | hx
                · exact Or.inl (Or.inl (Or.inl hx))
                · exact Or.inl (Or.inl (Or.inr hx))
                · exact Or.inl (Or.inr hx)
                · simp at hx
              · exact hdisj c (by simp [Dealer.presetCards, hq])
          · unfold baseDealCard at h
            split at h
            · simp at h
            · rename_i c0 rest hq
              injection h with h
              obtain ⟨rfl, rfl⟩ := Prod.mk.injEq .. ▸ And.intro
                (congrArg Prod.fst h) (congrArg Prod.snd h)
              rw [hq] at hnd
              refine ⟨(List.nodup_cons.mp hnd).2, ?_,
                (List.nodup_cons.mp hnd).1⟩
              intro x hx
              have hxd := hdisj x (by simpa [Dealer.presetCards] using hx)
              rw [hq] at hxd
              simp only [List.mem_cons, not_or] at hxd
              exact hxd.2

/-- Counterexample to C8 as stated: from the concrete manual game `gC8`,
whose player 0 already holds card 20, presetting the flop to contain card
20 succeeds, after which card 20 appears both in the preset flop queue and
in player 0's hand — the union of deck, presets and dealt cards has a
duplicate. -/
theorem preset_duplicates_dealt_cex :
    (gC8.set_flop [20, 30, 31]).map (fun g' => g'.allCards) =
      .ok [32, 33, 34, 35, 20, 30, 31, 20, 21, 22, 23] ∧
    ¬ ([32, 33, 34, 35, 20, 30, 31, 20, 21, 22, 23] : List Nat).Nodup := by
  refine ⟨by rfl, by decide⟩

/-- Witness for the corrected C8 at the concrete dealer `dW`. -/
theorem dealer_presets_disjoint_deck_witness :
    ((dW.set_turn 30).deck.Nodup ∧ (dW.set_turn 30).presetsDisjointDeck) ∧
      ((dW.set_player0_hand [40, 41]).deck.Nodup ∧
       (dW.set_player0_hand [40, 41]).presetsDisjointDeck) := by
  have hh := dealer_presets_disjoint_deck dW (by decide)
    (by intro c hc; simp [Dealer.presetCards, dW] at hc)
  exact ⟨hh.2.2.1 30, hh.1 [40, 41]⟩

end FixedNLH
